import Mathlib

/-!
Shallow embedding of the transcript batch-processing core of the
Knugget-Interview repository (src/services/TranscriptProcessor.ts,
src/controllers/TranscriptController.ts, src/types/index.ts,
src/config/index.ts).

JavaScript numbers used as counters are embedded as `Int` (increments and
decrements never overflow in practice and may go below zero).  The
in-memory `Map<string, BatchJob>` registry is embedded as an association
list in insertion order, matching JS `Map` iteration semantics.  Provider
network calls are nondeterministic; each per-file fan-out is parameterised
by the triple of settled outcomes (`some a` for a fulfilled call with
value `a`, `none` for a rejected call), exactly the information
`Promise.allSettled` hands back to the tracker.
-/

namespace Knugget

/-- Batch status enum from src/types/index.ts (`BatchJob.status`). -/
inductive BatchStatus where
  | created
  | processing
  | completed
  | failed
  | cancelled
  deriving Repr, DecidableEq

/-- File status enum from src/types/index.ts (`TranscriptFile.status`). -/
inductive FileStatus where
  | pending
  | processing
  | completed
  | failed
  deriving Repr, DecidableEq

/-- Structure `TranscriptAnalysis` from src/types/index.ts: one provider's result.
`Date` timestamps are outside the embedding; `metadata.tokens` is the
optional token count and `metadata.processingTime` the measured wall-clock
duration in milliseconds. -/
structure TranscriptAnalysis where
  model : String
  filename : String
  analysis : String
  tokens : Option Nat
  processingTime : Nat
  deriving Repr, DecidableEq

/-- Field `TranscriptFile.results` from src/types/index.ts: one optional slot
per provider, absent until that provider's call fulfils. -/
structure FileResults where
  openai : Option TranscriptAnalysis
  claude : Option TranscriptAnalysis
  gemini : Option TranscriptAnalysis
  deriving Repr, DecidableEq

/-- Structure `TranscriptFile` from src/types/index.ts (timestamps omitted). -/
structure TranscriptFile where
  id : String
  originalname : String
  content : String
  status : FileStatus
  results : FileResults
  error : Option String
  retryCount : Nat
  deriving Repr, DecidableEq

/-- Structure `BatchMetrics` from src/types/index.ts; every counter is a JS number,
embedded as `Int`. -/
structure BatchMetrics where
  total : Int
  pending : Int
  processing : Int
  completed : Int
  failed : Int
  openaiComplete : Int
  claudeComplete : Int
  geminiComplete : Int
  deriving Repr, DecidableEq

/-- Structure `JobConfig` from src/types/index.ts. -/
structure JobConfig where
  jobDescription : String
  prompt : String
  openaiModel : String
  claudeModel : String
  geminiModel : String
  deriving Repr, DecidableEq

/-- Structure `BatchJob` from src/types/index.ts (Date timestamps omitted). -/
structure BatchJob where
  id : String
  status : BatchStatus
  files : List TranscriptFile
  jobConfig : Option JobConfig
  metrics : BatchMetrics
  deriving Repr, DecidableEq

/-- The settled outcomes of the three concurrent provider calls for one
file, as observed by `Promise.allSettled` in
`TranscriptProcessor.processTranscript`: `some a` is a fulfilled call
with value `a`, `none` a rejected one. -/
structure FanoutOutcome where
  openai : Option TranscriptAnalysis
  claude : Option TranscriptAnalysis
  gemini : Option TranscriptAnalysis
  deriving Repr, DecidableEq

/-- The registry `private jobs: Map<string, BatchJob>` of
`TranscriptProcessor`, as an association list in insertion order. -/
abbrev Registry := List (String × BatchJob)

/-- JS `Map.prototype.get`. -/
def findBatch (jobs : Registry) (batchId : String) : Option BatchJob :=
  List.lookup batchId jobs

/-- JS `Map.prototype.set`: replaces the value of an existing key in place,
appends a fresh key at the end. -/
def mapSet (jobs : Registry) (batchId : String) (b : BatchJob) : Registry :=
  match jobs with
  | [] => [(batchId, b)]
  | (k, v) :: rest =>
      if k = batchId then (k, b) :: rest
      else (k, v) :: mapSet rest batchId b

/-- JS `Map.prototype.delete` (the key occurs at most once in a JS map). -/
def mapDelete (jobs : Registry) (batchId : String) : Registry :=
  match jobs with
  | [] => []
  | (k, v) :: rest =>
      if k = batchId then rest
      else (k, v) :: mapDelete rest batchId

/-- One `TranscriptFile` as built inside `TranscriptProcessor.createBatch`:
`pending` status, empty result slots, zero retry count. -/
def mkFileRecord (fileId name content : String) : TranscriptFile :=
  { id := fileId
    originalname := name
    content := content
    status := .pending
    results := { openai := none, claude := none, gemini := none }
    error := none
    retryCount := 0 }

/-- Method `TranscriptProcessor.createBatch`: the batch object constructed and
registered for a list of (id, originalname, content) uploads.  Initial
metrics: `pending = total = files.length`, every other counter zero. -/
def createBatch (batchId : String) (uploads : List (String × String × String))
    (cfg : JobConfig) : BatchJob :=
  { id := batchId
    status := .created
    files := uploads.map fun u => mkFileRecord u.1 u.2.1 u.2.2
    jobConfig := some cfg
    metrics :=
      { total := uploads.length
        pending := uploads.length
        processing := 0
        completed := 0
        failed := 0
        openaiComplete := 0
        claudeComplete := 0
        geminiComplete := 0 } }

/-- Method `TranscriptProcessor.cancelBatch`: returns `false` on a missing,
`completed` or `cancelled` batch, otherwise flips the status to
`cancelled` and returns `true`. -/
def cancelBatch (jobs : Registry) (batchId : String) : Bool × Registry :=
  match findBatch jobs batchId with
  | none => (false, jobs)
  | some batch =>
      if batch.status = .completed ∨ batch.status = .cancelled then
        (false, jobs)
      else
        (true, mapSet jobs batchId { batch with status := .cancelled })

/-- Method `TranscriptProcessor.deleteBatch`: returns `false` on a missing or
`processing` batch, otherwise removes the entry and returns `true`. -/
def deleteBatch (jobs : Registry) (batchId : String) : Bool × Registry :=
  match findBatch jobs batchId with
  | none => (false, jobs)
  | some batch =>
      if batch.status = .processing then (false, jobs)
      else (true, mapDelete jobs batchId)

/-- Number of fulfilled provider calls for one file
(`successCount` in `TranscriptProcessor.processTranscript`). -/
def successCount (out : FanoutOutcome) : Nat :=
  (if out.openai.isSome then 1 else 0) +
  (if out.claude.isSome then 1 else 0) +
  (if out.gemini.isSome then 1 else 0)

/-- The synchronous mutations of `TranscriptProcessor.processTranscript`
that precede the `Promise.allSettled` suspension point: file `i` is moved
to `processing`, the `processing` counter is incremented and `pending`
decremented. -/
def fileStartStep (b : BatchJob) (i : Nat) : BatchJob :=
  match b.files[i]? with
  | none => b
  | some f =>
      { b with
        files := b.files.set i { f with status := .processing }
        metrics :=
          { b.metrics with
            processing := b.metrics.processing + 1
            pending := b.metrics.pending - 1 } }

/-- The synchronous mutations of `TranscriptProcessor.processTranscript`
after all three provider promises settle: each fulfilled provider's
result is stored and its completion counter incremented; with at least
one success the file completes and `completed` increments, with zero
successes the file fails with the all-models-failed error and `failed`
increments; finally `processing` is decremented. -/
def fileSettleStep (b : BatchJob) (i : Nat) (out : FanoutOutcome) : BatchJob :=
  match b.files[i]? with
  | none => b
  | some f =>
      let newResults : FileResults :=
        { openai := match out.openai with | some a => some a | none => f.results.openai
          claude := match out.claude with | some a => some a | none => f.results.claude
          gemini := match out.gemini with | some a => some a | none => f.results.gemini }
      let m1 :=
        { b.metrics with
          openaiComplete := b.metrics.openaiComplete + (if out.openai.isSome then 1 else 0)
          claudeComplete := b.metrics.claudeComplete + (if out.claude.isSome then 1 else 0)
          geminiComplete := b.metrics.geminiComplete + (if out.gemini.isSome then 1 else 0) }
      if 0 < successCount out then
        { b with
          files := b.files.set i { f with status := .completed, results := newResults }
          metrics :=
            { m1 with
              completed := m1.completed + 1
              processing := m1.processing - 1 } }
      else
        { b with
          files := b.files.set i
            { f with
              status := .failed
              results := newResults
              error := some "All models failed to process the transcript" }
          metrics :=
            { m1 with
              failed := m1.failed + 1
              processing := m1.processing - 1 } }

/-- Method `TranscriptProcessor.processTranscript` for file index `i`, given the
settled outcome triple of its three concurrent provider calls.  The
leading guard mirrors `if (!batch || !batch.jobConfig) return`. -/
def processTranscript (b : BatchJob) (i : Nat) (out : FanoutOutcome) : BatchJob :=
  match b.jobConfig with
  | none => b
  | some _ => fileSettleStep (fileStartStep b i) i out

/-- The sequential per-file loop of `TranscriptProcessor.startProcessing`,
processing files `i, i+1, ...` for `fuel` iterations with outcome
`outs j` for file `j`. -/
def runFrom (b : BatchJob) (outs : Nat → FanoutOutcome) (i fuel : Nat) : BatchJob :=
  match fuel with
  | 0 => b
  | fuel' + 1 => runFrom (processTranscript b i (outs i)) outs (i + 1) fuel'

/-- The batch states observable between the suspension points of the
per-file loop: for every file, the state during the provider fan-out
(after `fileStartStep`) and the state after the fan-out settles (after
`fileSettleStep`, during the inter-file delay). -/
def runStatesFrom (b : BatchJob) (outs : Nat → FanoutOutcome) (i fuel : Nat) :
    List BatchJob :=
  match fuel with
  | 0 => []
  | fuel' + 1 =>
      let b1 := fileStartStep b i
      let b2 := fileSettleStep b1 i (outs i)
      b1 :: b2 :: runStatesFrom b2 outs (i + 1) fuel'

/-- All externally observable batch states of one
`TranscriptProcessor.startProcessing` execution on batch `b`: the state
right after `batch.status = "processing"`, the two states around each
file's fan-out, and the final state after `batch.status = "completed"`. -/
def runTrace (b : BatchJob) (outs : Nat → FanoutOutcome) : List BatchJob :=
  let b0 := { b with status := BatchStatus.processing }
  (b0 :: runStatesFrom b0 outs 0 b.files.length) ++
    [{ runFrom b0 outs 0 b.files.length with status := BatchStatus.completed }]

/-- Error cases of `TranscriptProcessor.startProcessing`. -/
inductive ProcError where
  | notFound
  | configMissing
  deriving Repr, DecidableEq

/-- Method `TranscriptProcessor.startProcessing`: throws `notFound` for an
unknown id and `configMissing` for a batch without a `jobConfig`, in both
cases before any mutation; otherwise sets the status to `processing`,
runs the per-file loop over every file and finally sets the status to
`completed`.  The returned registry is the post-call registry (unchanged
on error). -/
def startProcessing (jobs : Registry) (batchId : String)
    (outs : Nat → FanoutOutcome) : Except ProcError Unit × Registry :=
  match findBatch jobs batchId with
  | none => (.error .notFound, jobs)
  | some batch =>
      match batch.jobConfig with
      | none => (.error .configMissing, jobs)
      | some _ =>
          let b0 := { batch with status := BatchStatus.processing }
          let b1 := runFrom b0 outs 0 batch.files.length
          (.ok (), mapSet jobs batchId { b1 with status := BatchStatus.completed })

/-- One atomic (non-suspending) mutation of a batch's shared state, as
performed by the tracker between suspension points: the
`status = "processing"` header of `startProcessing`, the two mutation
blocks of `processTranscript` around the fan-out, the
`status = "completed"` footer of the loop, and the status effect of
`cancelBatch` on this batch.  Any interleaving of the processing loop
with cancellation is a sequence of these operations. -/
inductive TrackerOp where
  | startHeader
  | fileStart (i : Nat)
  | fileSettle (i : Nat) (out : FanoutOutcome)
  | finishLoop
  | cancel
  deriving Repr

/-- Effect of one tracker operation on the batch (the registry aliases
the very same `BatchJob` object, so batch-level effects are exactly what
any observer sees). -/
def applyOp (b : BatchJob) : TrackerOp → BatchJob
  | .startHeader => { b with status := BatchStatus.processing }
  | .fileStart i => fileStartStep b i
  | .fileSettle i out => fileSettleStep b i out
  | .finishLoop => { b with status := BatchStatus.completed }
  | .cancel =>
      if b.status = .completed ∨ b.status = .cancelled then b
      else { b with status := BatchStatus.cancelled }

/-- A sequence of tracker operations applied in order. -/
def applyOps (b : BatchJob) (ops : List TrackerOp) : BatchJob :=
  ops.foldl applyOp b

/-- Terminal batch statuses (spec §3: completed, failed, cancelled). -/
def BatchStatus.terminal : BatchStatus → Bool
  | .completed => true
  | .failed => true
  | .cancelled => true
  | _ => false

/-- JS `String.prototype.includes` on the underlying character lists. -/
def charsContain (s pat : List Char) : Bool :=
  match s with
  | [] => pat.isEmpty
  | _ :: rest => pat.isPrefixOf s || charsContain rest pat

/-- JS `model.includes(pat)` as used in `processWithOpenAI`. -/
def strContains (s pat : String) : Bool :=
  charsContain s.data pat.data

/-- Constant `apiConfig.openai.maxTokens` from src/config/index.ts. -/
def openaiMaxTokens : Nat := 4000

/-- Constant `apiConfig.anthropic.maxTokens` from src/config/index.ts. -/
def anthropicMaxTokens : Nat := 4000

/-- One chat message (`{ role, content }`). -/
structure ChatMessage where
  role : String
  content : String
  deriving Repr, DecidableEq

/-- The request body built by `TranscriptProcessor.processWithOpenAI`
(`completionParams`): model, system+user messages, and exactly one of the
two token-limit fields depending on the model name. -/
structure OpenAIRequest where
  model : String
  messages : List ChatMessage
  maxCompletionTokens : Option Nat
  maxTokens : Option Nat
  deriving Repr, DecidableEq

/-- The request body built by `TranscriptProcessor.processWithClaude`. -/
structure AnthropicRequest where
  model : String
  maxTokens : Nat
  messages : List ChatMessage
  deriving Repr, DecidableEq

/-- The request built by `TranscriptProcessor.processWithGemini`
(model selection plus the `generateContent` parts array). -/
structure GeminiRequest where
  model : String
  parts : List String
  deriving Repr, DecidableEq

/-- Request construction of `TranscriptProcessor.processWithOpenAI`:
`systemPrompt = prompt` (the job description is deliberately unused), a
user message wrapping the transcript, and `max_completion_tokens` for
newer model names (`gpt-4o`, `gpt-5`, `o1`, `o3`), `max_tokens`
otherwise. -/
def openaiRequest (content jobDescription prompt model : String) : OpenAIRequest :=
  let systemPrompt := prompt
  let isNewerModel :=
    strContains model "gpt-4o" || strContains model "gpt-5" ||
    strContains model "o1" || strContains model "o3"
  { model := model
    messages :=
      [{ role := "system", content := systemPrompt },
       { role := "user", content := "Analyze this transcript:\n\n" ++ content }]
    maxCompletionTokens := if isNewerModel then some openaiMaxTokens else none
    maxTokens := if isNewerModel then none else some openaiMaxTokens }

/-- Request construction of `TranscriptProcessor.processWithClaude`: one
user message carrying `prompt` followed by the transcript (the job
description is deliberately unused). -/
def claudeRequest (content jobDescription prompt model : String) : AnthropicRequest :=
  let systemPrompt := prompt
  { model := model
    maxTokens := anthropicMaxTokens
    messages :=
      [{ role := "user"
         content := systemPrompt ++ "\n\nAnalyze this transcript:\n\n" ++ content }] }

/-- Request construction of `TranscriptProcessor.processWithGemini`: the
`generateContent` parts are `prompt` and the wrapped transcript (the job
description is deliberately unused). -/
def geminiRequest (content jobDescription prompt model : String) : GeminiRequest :=
  let systemPrompt := prompt
  { model := model
    parts := [systemPrompt, "\n\nAnalyze this transcript:\n\n" ++ content] }

/-- The provider requests issued for one file by
`TranscriptProcessor.processTranscript`, which destructures
`{ jobDescription, prompt, models }` from the batch's `jobConfig` and
forwards them to the three adapters. -/
def fanoutRequests (cfg : JobConfig) (content : String) :
    OpenAIRequest × AnthropicRequest × GeminiRequest :=
  (openaiRequest content cfg.jobDescription cfg.prompt cfg.openaiModel,
   claudeRequest content cfg.jobDescription cfg.prompt cfg.claudeModel,
   geminiRequest content cfg.jobDescription cfg.prompt cfg.geminiModel)

/-- One per-file row of `MultiModelResults` from src/types/index.ts. -/
structure FileResultsView where
  filename : String
  openai : Option TranscriptAnalysis
  claude : Option TranscriptAnalysis
  gemini : Option TranscriptAnalysis
  deriving Repr, DecidableEq

/-- Structure `MultiModelResults` from src/types/index.ts. -/
structure MultiModelResults where
  batchId : String
  files : List FileResultsView
  deriving Repr, DecidableEq

/-- Method `TranscriptProcessor.getMultiModelResults` on a registered batch. -/
def getMultiModelResults (b : BatchJob) : MultiModelResults :=
  { batchId := b.id
    files := b.files.map fun f =>
      { filename := f.originalname
        openai := f.results.openai
        claude := f.results.claude
        gemini := f.results.gemini } }

/-- Node `path.posix.basename(p)` on character lists: trailing slashes
are ignored and the last path component returned (`"/"` for an all-slash
non-empty path, `""` for the empty path). -/
def posixBasenameChars (p : List Char) : List Char :=
  if p.isEmpty then []
  else
    let r := p.reverse.dropWhile (fun c => c = '/')
    if r.isEmpty then ['/']
    else (r.takeWhile (fun c => c ≠ '/')).reverse

/-- Node `path.basename(p, ext)` as used in
`TranscriptController.downloadResults`: the basename with `ext` stripped
when it is a proper suffix of the basename. -/
def basenameExt (p ext : String) : String :=
  let b := posixBasenameChars p.data
  let e := ext.data
  if b ≠ e ∧ e.isSuffixOf b then String.mk (b.take (b.length - e.length))
  else String.mk b

/-- One named member of the result archive
(`archive.append(text, { name })`). -/
structure ArchiveEntry where
  name : String
  content : String
  deriving Repr, DecidableEq

/-- The archive members appended for one file by
`TranscriptController.downloadResults`: for each present provider result
one entry under `provider/<stem>-<provider>.txt` holding only the
analysis text, nothing for an absent result. -/
def archiveEntriesForFile (f : FileResultsView) : List ArchiveEntry :=
  let baseFilename := basenameExt f.filename ".txt"
  (match f.openai with
   | some a => [{ name := "openai/" ++ baseFilename ++ "-openai.txt", content := a.analysis }]
   | none => []) ++
  (match f.claude with
   | some a => [{ name := "claude/" ++ baseFilename ++ "-claude.txt", content := a.analysis }]
   | none => []) ++
  (match f.gemini with
   | some a => [{ name := "gemini/" ++ baseFilename ++ "-gemini.txt", content := a.analysis }]
   | none => [])

/-- The full archive produced by `TranscriptController.downloadResults`
from a `MultiModelResults` snapshot, in file order. -/
def buildArchiveEntries (r : MultiModelResults) : List ArchiveEntry :=
  (r.files.map archiveEntriesForFile).flatten

/-- Number of providers with a present result for one file. -/
def presentCount (f : FileResultsView) : Nat :=
  (if f.openai.isSome then 1 else 0) +
  (if f.claude.isSome then 1 else 0) +
  (if f.gemini.isSome then 1 else 0)

/-! Concrete sample data used to exercise the definitions on closed inputs. -/

/-- A job configuration with both text fields over the 20-character ingress
minimum, as the normal creation path provides. -/
def sampleConfig : JobConfig :=
  { jobDescription := "We are hiring a support engineer for our helpdesk team"
    prompt := "Summarize the key issues raised by the customer"
    openaiModel := "gpt-4o-mini"
    claudeModel := "claude-3-5-sonnet-20240620"
    geminiModel := "gemini-2.0-flash-exp" }

/-- A concrete provider result. -/
def sampleAnalysis : TranscriptAnalysis :=
  { model := "gpt-4o-mini"
    filename := "call.txt"
    analysis := "The customer reported a billing problem."
    tokens := some 42
    processingTime := 10 }

/-- A fan-out in which all three provider calls fulfil. -/
def outcomeAll : FanoutOutcome :=
  { openai := some sampleAnalysis
    claude := some sampleAnalysis
    gemini := some sampleAnalysis }

/-- A fan-out in which all three provider calls reject. -/
def outcomeNone : FanoutOutcome :=
  { openai := none, claude := none, gemini := none }

/-- A one-file batch as created by `createBatch`. -/
def sampleBatch : BatchJob :=
  createBatch "batch-1" [("file-1", "call.txt", "hello world")] sampleConfig

/-- A registry holding only `sampleBatch`. -/
def sampleRegistry : Registry := mapSet [] "batch-1" sampleBatch

/-- The registry after one full processing run in which every provider
call fulfils. -/
def registryAfterOneRun : Registry :=
  (startProcessing sampleRegistry "batch-1" fun _ => outcomeAll).2

/-- The registry after `startProcessing` is invoked a second time on the
already-completed batch. -/
def registryAfterTwoRuns : Registry :=
  (startProcessing registryAfterOneRun "batch-1" fun _ => outcomeAll).2

/-- The batch `sampleBatch` with status `processing`. -/
def sampleBatchProcessing : BatchJob :=
  { sampleBatch with status := BatchStatus.processing }

/-- The batch `sampleBatch` with status `completed`. -/
def sampleBatchCompleted : BatchJob :=
  { sampleBatch with status := BatchStatus.completed }

/-- The batch `sampleBatch` stripped of its job configuration (the defensive
`configMissing` branch of `startProcessing`). -/
def sampleBatchNoConfig : BatchJob :=
  { sampleBatch with jobConfig := none }

/-- A results snapshot with one file for which two of the three providers
produced a result. -/
def sampleResults : MultiModelResults :=
  { batchId := "batch-1"
    files :=
      [{ filename := "call.txt"
         openai := some sampleAnalysis
         claude := none
         gemini := some sampleAnalysis }] }

/-- The interleaving that cancels a batch mid-run: the processing loop
starts, the single file settles, `cancelBatch` flips the status to
`cancelled`, and then the loop's completion step runs. -/
def cancelMidRunOps : List TrackerOp :=
  [TrackerOp.startHeader, TrackerOp.fileStart 0,
   TrackerOp.fileSettle 0 outcomeAll, TrackerOp.cancel]

/-! Helper lemmas about the registry embedding. -/

theorem findBatch_nil (a : String) : findBatch [] a = none := rfl

theorem findBatch_cons (k : String) (v : BatchJob) (rest : Registry) (a : String) :
    findBatch ((k, v) :: rest) a = if a = k then some v else findBatch rest a := by
  by_cases h : a = k
  · subst h
    simp [findBatch, List.lookup]
  · simp [findBatch, List.lookup, beq_false_of_ne h, h]

theorem findBatch_mapSet_self (jobs : Registry) (batchId : String) (b : BatchJob) :
    findBatch (mapSet jobs batchId b) batchId = some b := by
  induction jobs with
  | nil => simp [mapSet, findBatch_cons]
  | cons p rest ih =>
      obtain ⟨k, v⟩ := p
      by_cases hk : k = batchId
      · subst hk
        simp [mapSet, findBatch_cons]
      · simpa [mapSet, hk, findBatch_cons, Ne.symm hk] using ih

theorem findBatch_mapSet_ne (jobs : Registry) (batchId k : String) (b : BatchJob)
    (hne : k ≠ batchId) :
    findBatch (mapSet jobs batchId b) k = findBatch jobs k := by
  induction jobs with
  | nil => simp [mapSet, findBatch_cons, findBatch_nil, hne]
  | cons p rest ih =>
      obtain ⟨k', v⟩ := p
      by_cases hk : k' = batchId
      · subst hk
        simp [mapSet, findBatch_cons, hne]
      · simp [mapSet, hk, findBatch_cons, ih]

theorem findBatch_eq_none_of_key_not_mem (jobs : Registry) (a : String)
    (h : ∀ q ∈ jobs, q.1 ≠ a) : findBatch jobs a = none := by
  induction jobs with
  | nil => rfl
  | cons q rest ih =>
      obtain ⟨k, v⟩ := q
      rw [findBatch_cons, if_neg (Ne.symm (h (k, v) (by simp)))]
      exact ih fun q hq => h q (List.mem_cons_of_mem _ hq)

theorem findBatch_mapDelete_self (jobs : Registry) (batchId : String)
    (hnd : (jobs.map Prod.fst).Nodup) :
    findBatch (mapDelete jobs batchId) batchId = none := by
  induction jobs with
  | nil => simp [mapDelete, findBatch_nil]
  | cons p rest ih =>
      obtain ⟨k, v⟩ := p
      simp only [List.map_cons, List.nodup_cons] at hnd
      by_cases hk : k = batchId
      · subst hk
        have hout : ∀ q ∈ rest, q.1 ≠ k := by
          intro q hq hqk
          exact hnd.1 (hqk ▸ List.mem_map_of_mem Prod.fst hq)
        have hdel : mapDelete ((k, v) :: rest) k = rest := by simp [mapDelete]
        rw [hdel]
        exact findBatch_eq_none_of_key_not_mem rest k hout
      · simpa [mapDelete, hk, findBatch_cons, Ne.symm hk] using ih hnd.2

theorem findBatch_mapDelete_ne (jobs : Registry) (batchId k : String)
    (hne : k ≠ batchId) :
    findBatch (mapDelete jobs batchId) k = findBatch jobs k := by
  induction jobs with
  | nil => simp [mapDelete]
  | cons p rest ih =>
      obtain ⟨k', v⟩ := p
      by_cases hk : k' = batchId
      · subst hk
        simp [mapDelete, findBatch_cons, hne]
      · simp [mapDelete, hk, findBatch_cons, ih]

/-! Helper lemmas about the per-file processing steps. -/

theorem lt_length_of_getElem?_eq_some {l : List TranscriptFile} {i : Nat}
    {f : TranscriptFile} (h : l[i]? = some f) : i < l.length := by
  by_contra hc
  rw [List.getElem?_eq_none (Nat.le_of_not_lt hc)] at h
  exact Option.noConfusion h

theorem fileStartStep_facts (b : BatchJob) (i : Nat) :
    (fileStartStep b i).metrics.total = b.metrics.total ∧
    (fileStartStep b i).metrics.pending + (fileStartStep b i).metrics.processing +
        (fileStartStep b i).metrics.completed + (fileStartStep b i).metrics.failed
      = b.metrics.pending + b.metrics.processing +
        b.metrics.completed + b.metrics.failed ∧
    (fileStartStep b i).metrics.openaiComplete = b.metrics.openaiComplete ∧
    (fileStartStep b i).metrics.claudeComplete = b.metrics.claudeComplete ∧
    (fileStartStep b i).metrics.geminiComplete = b.metrics.geminiComplete ∧
    (fileStartStep b i).status = b.status ∧
    (fileStartStep b i).jobConfig = b.jobConfig := by
  cases h : b.files[i]? with
  | none => simp [fileStartStep, h]
  | some f =>
      refine ⟨?_, ?_, ?_, ?_, ?_, ?_, ?_⟩ <;> simp [fileStartStep, h] <;> omega

theorem fileSettleStep_facts (b : BatchJob) (i : Nat) (out : FanoutOutcome) :
    (fileSettleStep b i out).metrics.total = b.metrics.total ∧
    (fileSettleStep b i out).metrics.pending + (fileSettleStep b i out).metrics.processing +
        (fileSettleStep b i out).metrics.completed + (fileSettleStep b i out).metrics.failed
      = b.metrics.pending + b.metrics.processing +
        b.metrics.completed + b.metrics.failed ∧
    (fileSettleStep b i out).status = b.status ∧
    (fileSettleStep b i out).jobConfig = b.jobConfig ∧
    b.metrics.openaiComplete ≤ (fileSettleStep b i out).metrics.openaiComplete ∧
    (fileSettleStep b i out).metrics.openaiComplete ≤ b.metrics.openaiComplete + 1 ∧
    b.metrics.claudeComplete ≤ (fileSettleStep b i out).metrics.claudeComplete ∧
    (fileSettleStep b i out).metrics.claudeComplete ≤ b.metrics.claudeComplete + 1 ∧
    b.metrics.geminiComplete ≤ (fileSettleStep b i out).metrics.geminiComplete ∧
    (fileSettleStep b i out).metrics.geminiComplete ≤ b.metrics.geminiComplete + 1 := by
  cases h : b.files[i]? with
  | none => simp [fileSettleStep, h]
  | some f =>
      by_cases hs : 0 < successCount out <;>
        refine ⟨?_, ?_, ?_, ?_, ?_, ?_, ?_, ?_, ?_, ?_⟩ <;>
          simp [fileSettleStep, h, hs] <;> omega

theorem processTranscript_facts (b : BatchJob) (i : Nat) (out : FanoutOutcome) :
    (processTranscript b i out).metrics.total = b.metrics.total ∧
    (processTranscript b i out).metrics.pending + (processTranscript b i out).metrics.processing +
        (processTranscript b i out).metrics.completed + (processTranscript b i out).metrics.failed
      = b.metrics.pending + b.metrics.processing +
        b.metrics.completed + b.metrics.failed ∧
    (processTranscript b i out).status = b.status ∧
    (processTranscript b i out).jobConfig = b.jobConfig ∧
    b.metrics.openaiComplete ≤ (processTranscript b i out).metrics.openaiComplete ∧
    (processTranscript b i out).metrics.openaiComplete ≤ b.metrics.openaiComplete + 1 ∧
    b.metrics.claudeComplete ≤ (processTranscript b i out).metrics.claudeComplete ∧
    (processTranscript b i out).metrics.claudeComplete ≤ b.metrics.claudeComplete + 1 ∧
    b.metrics.geminiComplete ≤ (processTranscript b i out).metrics.geminiComplete ∧
    (processTranscript b i out).metrics.geminiComplete ≤ b.metrics.geminiComplete + 1 := by
  cases hc : b.jobConfig with
  | none => simp [processTranscript, hc]
  | some cfg =>
      have hpt : processTranscript b i out = fileSettleStep (fileStartStep b i) i out := by
        simp [processTranscript, hc]
      obtain ⟨h1t, h1s, h1o, h1c, h1g, h1st, h1cfg⟩ := fileStartStep_facts b i
      obtain ⟨h2t, h2s, h2st, h2cfg, h2o1, h2o2, h2c1, h2c2, h2g1, h2g2⟩ :=
        fileSettleStep_facts (fileStartStep b i) i out
      rw [hpt]
      refine ⟨by omega, by omega, ?_, ?_, by omega, by omega, by omega,
        by omega, by omega, by omega⟩
      · rw [h2st, h1st]
      · rw [h2cfg, h1cfg]
        exact hc

theorem runFrom_facts (outs : Nat → FanoutOutcome) :
    ∀ (fuel : Nat) (b : BatchJob) (i : Nat),
    (runFrom b outs i fuel).metrics.total = b.metrics.total ∧
    (runFrom b outs i fuel).metrics.pending + (runFrom b outs i fuel).metrics.processing +
        (runFrom b outs i fuel).metrics.completed + (runFrom b outs i fuel).metrics.failed
      = b.metrics.pending + b.metrics.processing +
        b.metrics.completed + b.metrics.failed ∧
    (runFrom b outs i fuel).status = b.status ∧
    (runFrom b outs i fuel).jobConfig = b.jobConfig ∧
    b.metrics.openaiComplete ≤ (runFrom b outs i fuel).metrics.openaiComplete ∧
    (runFrom b outs i fuel).metrics.openaiComplete ≤ b.metrics.openaiComplete + (fuel : Int) ∧
    b.metrics.claudeComplete ≤ (runFrom b outs i fuel).metrics.claudeComplete ∧
    (runFrom b outs i fuel).metrics.claudeComplete ≤ b.metrics.claudeComplete + (fuel : Int) ∧
    b.metrics.geminiComplete ≤ (runFrom b outs i fuel).metrics.geminiComplete ∧
    (runFrom b outs i fuel).metrics.geminiComplete ≤ b.metrics.geminiComplete + (fuel : Int) := by
  intro fuel
  induction fuel with
  | zero =>
      intro b i
      simp [runFrom]
  | succ fuel ih =>
      intro b i
      obtain ⟨h1t, h1s, h1st, h1cfg, h1o1, h1o2, h1c1, h1c2, h1g1, h1g2⟩ :=
        processTranscript_facts b i (outs i)
      obtain ⟨h2t, h2s, h2st, h2cfg, h2o1, h2o2, h2c1, h2c2, h2g1, h2g2⟩ :=
        ih (processTranscript b i (outs i)) (i + 1)
      simp only [runFrom]
      refine ⟨by omega, by omega, by rw [h2st, h1st], by rw [h2cfg, h1cfg],
        by omega, ?_, by omega, ?_, by omega, ?_⟩ <;>
        push_cast <;> omega

theorem runStatesFrom_facts (outs : Nat → FanoutOutcome) :
    ∀ (fuel : Nat) (b : BatchJob) (i : Nat) (x : BatchJob),
    x ∈ runStatesFrom b outs i fuel →
    x.metrics.total = b.metrics.total ∧
    x.metrics.pending + x.metrics.processing + x.metrics.completed + x.metrics.failed
      = b.metrics.pending + b.metrics.processing +
        b.metrics.completed + b.metrics.failed ∧
    x.status = b.status ∧
    b.metrics.openaiComplete ≤ x.metrics.openaiComplete ∧
    x.metrics.openaiComplete ≤ b.metrics.openaiComplete + (fuel : Int) ∧
    b.metrics.claudeComplete ≤ x.metrics.claudeComplete ∧
    x.metrics.claudeComplete ≤ b.metrics.claudeComplete + (fuel : Int) ∧
    b.metrics.geminiComplete ≤ x.metrics.geminiComplete ∧
    x.metrics.geminiComplete ≤ b.metrics.geminiComplete + (fuel : Int) := by
  intro fuel
  induction fuel with
  | zero =>
      intro b i x hx
      simp [runStatesFrom] at hx
  | succ fuel ih =>
      intro b i x hx
      obtain ⟨h1t, h1s, h1o, h1c, h1g, h1st, h1cfg⟩ := fileStartStep_facts b i
      obtain ⟨h2t, h2s, h2st, h2cfg, h2o1, h2o2, h2c1, h2c2, h2g1, h2g2⟩ :=
        fileSettleStep_facts (fileStartStep b i) i (outs i)
      simp only [runStatesFrom, List.mem_cons] at hx
      rcases hx with hx | hx | hx
      · subst hx
        refine ⟨h1t, h1s, h1st, ?_, ?_, ?_, ?_, ?_, ?_⟩ <;> push_cast <;> omega
      · subst hx
        refine ⟨by omega, by omega, by rw [h2st, h1st], ?_, ?_, ?_, ?_, ?_, ?_⟩ <;>
          push_cast <;> omega
      · obtain ⟨h3t, h3s, h3st, h3o1, h3o2, h3c1, h3c2, h3g1, h3g2⟩ :=
          ih (fileSettleStep (fileStartStep b i) i (outs i)) (i + 1) x hx
        refine ⟨by omega, by omega, by rw [h3st, h2st, h1st], ?_, ?_, ?_, ?_, ?_, ?_⟩ <;>
          push_cast at h3o2 h3c2 h3g2 ⊢ <;> omega

theorem runStatesFrom_map_status (outs : Nat → FanoutOutcome) :
    ∀ (fuel : Nat) (b : BatchJob) (i : Nat),
    (runStatesFrom b outs i fuel).map BatchJob.status
      = List.replicate (2 * fuel) b.status := by
  intro fuel
  induction fuel with
  | zero =>
      intro b i
      simp [runStatesFrom]
  | succ fuel ih =>
      intro b i
      have h1 := (fileStartStep_facts b i).2.2.2.2.2.1
      have h2 := (fileSettleStep_facts (fileStartStep b i) i (outs i)).2.2.1
      simp only [runStatesFrom, List.map_cons]
      rw [ih, h2, h1]
      rw [show 2 * (fuel + 1) = (2 * fuel + 1) + 1 by ring]
      simp [List.replicate_succ]

theorem fileSettleStep_success (b : BatchJob) (i : Nat) (out : FanoutOutcome)
    (f : TranscriptFile) (hf : b.files[i]? = some f) (hs : 0 < successCount out) :
    ((fileSettleStep b i out).files[i]?).map TranscriptFile.status
      = some FileStatus.completed ∧
    (fileSettleStep b i out).metrics.completed = b.metrics.completed + 1 ∧
    (fileSettleStep b i out).metrics.failed = b.metrics.failed := by
  refine ⟨?_, ?_, ?_⟩ <;> simp [fileSettleStep, hf, hs, List.getElem?_set_self']

theorem fileSettleStep_failure (b : BatchJob) (i : Nat) (out : FanoutOutcome)
    (f : TranscriptFile) (hf : b.files[i]? = some f) (hs : successCount out = 0) :
    ((fileSettleStep b i out).files[i]?).map TranscriptFile.status
      = some FileStatus.failed ∧
    ((fileSettleStep b i out).files[i]?).map TranscriptFile.error
      = some (some "All models failed to process the transcript") ∧
    (fileSettleStep b i out).metrics.failed = b.metrics.failed + 1 ∧
    (fileSettleStep b i out).metrics.completed = b.metrics.completed := by
  refine ⟨?_, ?_, ?_, ?_⟩ <;> simp [fileSettleStep, hf, hs, List.getElem?_set_self']

theorem fileStartStep_getElem (b : BatchJob) (i : Nat) (f : TranscriptFile)
    (hf : b.files[i]? = some f) :
    (fileStartStep b i).files[i]? = some { f with status := FileStatus.processing } := by
  simp [fileStartStep, hf, List.getElem?_set_self']

/-! Claim theorems. -/

/-- C5: `cancelBatch(batchId)` returns `true` and sets the batch's status
to `cancelled` if and only if the batch exists and its status is not
already `completed` or `cancelled`; in every other case it returns
`false` and leaves the batch's status and the registry unchanged. -/
theorem cancelBatch_success_iff (jobs : Registry) (batchId : String) :
    ((cancelBatch jobs batchId).1 = true ↔
      ∃ b, findBatch jobs batchId = some b ∧
        b.status ≠ BatchStatus.completed ∧ b.status ≠ BatchStatus.cancelled) ∧
    (∀ b, findBatch jobs batchId = some b →
      b.status ≠ BatchStatus.completed → b.status ≠ BatchStatus.cancelled →
      findBatch (cancelBatch jobs batchId).2 batchId
          = some { b with status := BatchStatus.cancelled } ∧
      ∀ k, k ≠ batchId →
        findBatch (cancelBatch jobs batchId).2 k = findBatch jobs k) ∧
    ((cancelBatch jobs batchId).1 = false → (cancelBatch jobs batchId).2 = jobs) := by
  cases hb : findBatch jobs batchId with
  | none =>
      have hres : cancelBatch jobs batchId = (false, jobs) := by
        simp [cancelBatch, hb]
      rw [hres]
      refine ⟨by simp, ?_, fun _ => rfl⟩
      intro b hb2
      exact Option.noConfusion hb2
  | some b =>
      by_cases hst : b.status = BatchStatus.completed ∨ b.status = BatchStatus.cancelled
      · have hres : cancelBatch jobs batchId = (false, jobs) := by
          simp only [cancelBatch, hb]
          rw [if_pos hst]
        rw [hres]
        refine ⟨?_, ?_, fun _ => rfl⟩
        · simp only [Bool.false_eq_true, false_iff]
          rintro ⟨b2, hb2, h1, h2⟩
          injection hb2 with he
          subst he
          rcases hst with h | h
          · exact h1 h
          · exact h2 h
        · rintro b2 hb2 h1 h2
          injection hb2 with he
          subst he
          rcases hst with h | h
          · exact absurd h h1
          · exact absurd h h2
      · push_neg at hst
        have hres : cancelBatch jobs batchId =
            (true, mapSet jobs batchId { b with status := BatchStatus.cancelled }) := by
          simp only [cancelBatch, hb]
          rw [if_neg (not_or.mpr ⟨hst.1, hst.2⟩)]
        rw [hres]
        refine ⟨by simp only [true_iff]; exact ⟨b, rfl, hst.1, hst.2⟩, ?_, by simp⟩
        rintro b2 hb2 h1 h2
        injection hb2 with he
        subst he
        exact ⟨findBatch_mapSet_self jobs batchId _,
          fun k hk => findBatch_mapSet_ne jobs batchId k _ hk⟩

/-- C5 witness: cancelling the freshly created sample batch succeeds and
records status `cancelled`. -/
theorem cancelBatch_success_iff_witness :
    (cancelBatch sampleRegistry "batch-1").1 = true ∧
    findBatch (cancelBatch sampleRegistry "batch-1").2 "batch-1"
      = some { sampleBatch with status := BatchStatus.cancelled } :=
  ⟨(cancelBatch_success_iff sampleRegistry "batch-1").1.mpr
      ⟨sampleBatch, by decide, by decide, by decide⟩,
   ((cancelBatch_success_iff sampleRegistry "batch-1").2.1 sampleBatch
      (by decide) (by decide) (by decide)).1⟩

/-- C6: `deleteBatch(batchId)` returns `true` and removes the batch from
the registry if and only if the batch exists and is not `processing`; on
a `processing` batch it returns `false` and the batch remains present
unchanged. -/
theorem deleteBatch_success_iff (jobs : Registry) (batchId : String) :
    ((deleteBatch jobs batchId).1 = true ↔
      ∃ b, findBatch jobs batchId = some b ∧ b.status ≠ BatchStatus.processing) ∧
    ((jobs.map Prod.fst).Nodup → (deleteBatch jobs batchId).1 = true →
      findBatch (deleteBatch jobs batchId).2 batchId = none) ∧
    (∀ k, k ≠ batchId →
      findBatch (deleteBatch jobs batchId).2 k = findBatch jobs k) ∧
    ((deleteBatch jobs batchId).1 = false → (deleteBatch jobs batchId).2 = jobs) ∧
    (∀ b, findBatch jobs batchId = some b → b.status = BatchStatus.processing →
      (deleteBatch jobs batchId).1 = false ∧
      findBatch (deleteBatch jobs batchId).2 batchId = some b) := by
  cases hb : findBatch jobs batchId with
  | none =>
      have hres : deleteBatch jobs batchId = (false, jobs) := by
        simp [deleteBatch, hb]
      rw [hres]
      refine ⟨by simp, by simp, fun k _ => rfl, fun _ => rfl, ?_⟩
      intro b hb2
      exact Option.noConfusion hb2
  | some b =>
      by_cases hst : b.status = BatchStatus.processing
      · have hres : deleteBatch jobs batchId = (false, jobs) := by
          simp only [deleteBatch, hb]
          rw [if_pos hst]
        rw [hres]
        refine ⟨?_, by simp, fun k _ => rfl, fun _ => rfl, ?_⟩
        · simp only [Bool.false_eq_true, false_iff]
          rintro ⟨b2, hb2, h1⟩
          injection hb2 with he
          subst he
          exact h1 hst
        · rintro b2 hb2 h2
          injection hb2 with he
          subst he
          exact ⟨rfl, hb⟩
      · have hres : deleteBatch jobs batchId = (true, mapDelete jobs batchId) := by
          simp only [deleteBatch, hb]
          rw [if_neg hst]
        rw [hres]
        refine ⟨by simp only [true_iff]; exact ⟨b, rfl, hst⟩,
          fun hnd _ => findBatch_mapDelete_self jobs batchId hnd,
          fun k hk => findBatch_mapDelete_ne jobs batchId k hk,
          by simp, ?_⟩
        rintro b2 hb2 h2
        injection hb2 with he
        subst he
        exact absurd h2 hst

/-- C6 witness: deleting a `processing` batch fails and leaves it
registered; deleting the same batch once `completed` succeeds and removes
it. -/
theorem deleteBatch_success_iff_witness :
    ((deleteBatch [("batch-1", sampleBatchProcessing)] "batch-1").1 = false ∧
      findBatch (deleteBatch [("batch-1", sampleBatchProcessing)] "batch-1").2 "batch-1"
        = some sampleBatchProcessing) ∧
    findBatch (deleteBatch [("batch-1", sampleBatchCompleted)] "batch-1").2 "batch-1"
      = none :=
  ⟨(deleteBatch_success_iff [("batch-1", sampleBatchProcessing)] "batch-1").2.2.2.2
      sampleBatchProcessing (by decide) (by decide),
   (deleteBatch_success_iff [("batch-1", sampleBatchCompleted)] "batch-1").2.1
      (by decide)
      ((deleteBatch_success_iff [("batch-1", sampleBatchCompleted)] "batch-1").1.mpr
        ⟨sampleBatchCompleted, by decide, by decide⟩)⟩

/-- C7: `startProcessing` fails with the not-found error on an unknown
batch id and with the configuration-missing error on a registered batch
without a `JobConfig`, in both cases returning before any batch state or
registry mutation. -/
theorem startProcessing_failfast (jobs : Registry) (batchId : String)
    (outs : Nat → FanoutOutcome) :
    (findBatch jobs batchId = none →
      startProcessing jobs batchId outs = (Except.error ProcError.notFound, jobs)) ∧
    (∀ b, findBatch jobs batchId = some b → b.jobConfig = none →
      startProcessing jobs batchId outs
        = (Except.error ProcError.configMissing, jobs)) := by
  constructor
  · intro h
    simp [startProcessing, h]
  · intro b hb hcfg
    simp [startProcessing, hb, hcfg]

/-- C7 witness: the two failure modes on concrete registries, with the
registry returned untouched. -/
theorem startProcessing_failfast_witness :
    startProcessing [] "missing" (fun _ => outcomeAll)
        = (Except.error ProcError.notFound, []) ∧
    startProcessing [("batch-1", sampleBatchNoConfig)] "batch-1" (fun _ => outcomeAll)
        = (Except.error ProcError.configMissing, [("batch-1", sampleBatchNoConfig)]) :=
  ⟨(startProcessing_failfast [] "missing" (fun _ => outcomeAll)).1 rfl,
   (startProcessing_failfast [("batch-1", sampleBatchNoConfig)] "batch-1"
      (fun _ => outcomeAll)).2 sampleBatchNoConfig (by decide) rfl⟩

/-- C8: the `jobDescription` field of `JobConfig` does not influence any
provider call: for any two configurations differing only in
`jobDescription`, each provider adapter constructs an identical request —
only the analysis prompt and the transcript content are forwarded. -/
theorem jobDescription_not_forwarded :
    (∀ (content jd1 jd2 prompt model : String),
      openaiRequest content jd1 prompt model = openaiRequest content jd2 prompt model) ∧
    (∀ (content jd1 jd2 prompt model : String),
      claudeRequest content jd1 prompt model = claudeRequest content jd2 prompt model) ∧
    (∀ (content jd1 jd2 prompt model : String),
      geminiRequest content jd1 prompt model = geminiRequest content jd2 prompt model) ∧
    (∀ (cfg : JobConfig) (jd content : String),
      fanoutRequests { cfg with jobDescription := jd } content
        = fanoutRequests cfg content) :=
  ⟨fun _ _ _ _ _ => rfl, fun _ _ _ _ _ => rfl, fun _ _ _ _ _ => rfl,
   fun _ _ _ => rfl⟩

/-- C1: after a file's three concurrent provider calls settle, at least
one success makes the file `completed` and increments the batch
`completed` counter by one; zero successes make the file `failed` with
the all-providers-failed error message and increment the `failed` counter
by one; and a successful `startProcessing` run always leaves the batch
itself with status `completed`, however many files failed. -/
theorem perFile_outcome_and_batch_completes :
    (∀ (b : BatchJob) (i : Nat) (out : FanoutOutcome),
      b.jobConfig.isSome → i < b.files.length →
      ((0 < successCount out →
        ((processTranscript b i out).files[i]?).map TranscriptFile.status
            = some FileStatus.completed ∧
        (processTranscript b i out).metrics.completed = b.metrics.completed + 1 ∧
        (processTranscript b i out).metrics.failed = b.metrics.failed) ∧
       (successCount out = 0 →
        ((processTranscript b i out).files[i]?).map TranscriptFile.status
            = some FileStatus.failed ∧
        ((processTranscript b i out).files[i]?).map TranscriptFile.error
            = some (some "All models failed to process the transcript") ∧
        (processTranscript b i out).metrics.failed = b.metrics.failed + 1 ∧
        (processTranscript b i out).metrics.completed = b.metrics.completed))) ∧
    (∀ (jobs : Registry) (batchId : String) (outs : Nat → FanoutOutcome),
      (startProcessing jobs batchId outs).1 = Except.ok () →
      ∃ b2, findBatch (startProcessing jobs batchId outs).2 batchId = some b2 ∧
        b2.status = BatchStatus.completed) := by
  constructor
  · intro b i out hcfg hlen
    obtain ⟨cfg, hc⟩ := Option.isSome_iff_exists.mp hcfg
    have hf : b.files[i]? = some (b.files.get ⟨i, hlen⟩) := by
      rw [List.getElem?_eq_getElem hlen]
      rfl
    have hpt : processTranscript b i out = fileSettleStep (fileStartStep b i) i out := by
      simp [processTranscript, hc]
    have hf1 := fileStartStep_getElem b i _ hf
    have hcf : (fileStartStep b i).metrics.completed = b.metrics.completed ∧
        (fileStartStep b i).metrics.failed = b.metrics.failed := by
      cases h2 : b.files[i]? <;> simp [fileStartStep, h2]
    constructor
    · intro hs
      obtain ⟨hstat, hcomp, hfail⟩ := fileSettleStep_success (fileStartStep b i) i out _ hf1 hs
      rw [hpt]
      exact ⟨hstat, by rw [hcomp, hcf.1], by rw [hfail, hcf.2]⟩
    · intro hs
      obtain ⟨hstat, herr, hfail, hcomp⟩ :=
        fileSettleStep_failure (fileStartStep b i) i out _ hf1 hs
      rw [hpt]
      exact ⟨hstat, herr, by rw [hfail, hcf.2], by rw [hcomp, hcf.1]⟩
  · intro jobs batchId outs hok
    cases hb : findBatch jobs batchId with
    | none => simp [startProcessing, hb] at hok
    | some batch =>
        cases hcfg : batch.jobConfig with
        | none => simp [startProcessing, hb, hcfg] at hok
        | some cfg =>
            have hsnd : (startProcessing jobs batchId outs).2
                = mapSet jobs batchId
                    { runFrom { batch with status := BatchStatus.processing } outs 0
                        batch.files.length with
                      status := BatchStatus.completed } := by
              simp [startProcessing, hb, hcfg]
            exact ⟨_, by rw [hsnd]; exact findBatch_mapSet_self jobs batchId _, rfl⟩

/-- C1 witness: on the concrete one-file batch, an all-success fan-out
completes the file, an all-failure fan-out fails it, and the run leaves
the batch `completed`. -/
theorem perFile_outcome_and_batch_completes_witness :
    ((processTranscript sampleBatch 0 outcomeAll).files[0]?).map TranscriptFile.status
        = some FileStatus.completed ∧
    ((processTranscript sampleBatch 0 outcomeNone).files[0]?).map TranscriptFile.status
        = some FileStatus.failed ∧
    ∃ b2, findBatch (startProcessing sampleRegistry "batch-1" fun _ => outcomeAll).2
          "batch-1" = some b2 ∧
        b2.status = BatchStatus.completed :=
  ⟨((perFile_outcome_and_batch_completes.1 sampleBatch 0 outcomeAll
      (by decide) (by decide)).1 (by decide)).1,
   ((perFile_outcome_and_batch_completes.1 sampleBatch 0 outcomeNone
      (by decide) (by decide)).2 (by decide)).1,
   perFile_outcome_and_batch_completes.2 sampleRegistry "batch-1"
      (fun _ => outcomeAll) rfl⟩

/-- C2: at every externally observable instant of a batch's life — at
creation and between any two suspension points of the processing loop —
`pending + processing + completed + failed = total`, and `total` never
changes from its creation value. -/
theorem metrics_sum_invariant (batchId : String)
    (uploads : List (String × String × String)) (cfg : JobConfig)
    (outs : Nat → FanoutOutcome) (x : BatchJob)
    (hx : x ∈ createBatch batchId uploads cfg ::
        runTrace (createBatch batchId uploads cfg) outs) :
    x.metrics.pending + x.metrics.processing + x.metrics.completed + x.metrics.failed
      = x.metrics.total ∧
    x.metrics.total = (createBatch batchId uploads cfg).metrics.total := by
  have hbsum : (createBatch batchId uploads cfg).metrics.pending +
      (createBatch batchId uploads cfg).metrics.processing +
      (createBatch batchId uploads cfg).metrics.completed +
      (createBatch batchId uploads cfg).metrics.failed
      = (createBatch batchId uploads cfg).metrics.total := by
    simp [createBatch]
  rcases List.mem_cons.mp hx with rfl | hx2
  · exact ⟨hbsum, rfl⟩
  · have htr : runTrace (createBatch batchId uploads cfg) outs =
        ({ createBatch batchId uploads cfg with status := BatchStatus.processing } ::
          runStatesFrom
            { createBatch batchId uploads cfg with status := BatchStatus.processing }
            outs 0 (createBatch batchId uploads cfg).files.length) ++
        [{ runFrom
            { createBatch batchId uploads cfg with status := BatchStatus.processing }
            outs 0 (createBatch batchId uploads cfg).files.length with
          status := BatchStatus.completed }] := by
      simp [runTrace]
    rw [htr] at hx2
    rcases List.mem_append.mp hx2 with hmid | hlast
    · rcases List.mem_cons.mp hmid with rfl | hmem
      · exact ⟨hbsum, rfl⟩
      · obtain ⟨ht, hs, _⟩ :=
          runStatesFrom_facts outs (createBatch batchId uploads cfg).files.length
            { createBatch batchId uploads cfg with status := BatchStatus.processing }
            0 x hmem
        constructor
        · rw [hs, ht]
          exact hbsum
        · exact ht
    · rcases List.mem_singleton.mp hlast with rfl
      obtain ⟨ht, hs, _⟩ :=
        runFrom_facts outs (createBatch batchId uploads cfg).files.length
          { createBatch batchId uploads cfg with status := BatchStatus.processing } 0
      constructor
      · simpa [ht, hs] using hbsum
      · simpa using ht

/-- C2 witness: the observable state during the sample batch's fan-out
(file moved to `processing`) still satisfies the counter equation, with
an unchanged total. -/
theorem metrics_sum_invariant_witness :
    (fileStartStep sampleBatchProcessing 0).metrics.pending +
        (fileStartStep sampleBatchProcessing 0).metrics.processing +
        (fileStartStep sampleBatchProcessing 0).metrics.completed +
        (fileStartStep sampleBatchProcessing 0).metrics.failed
      = (fileStartStep sampleBatchProcessing 0).metrics.total ∧
    (fileStartStep sampleBatchProcessing 0).metrics.total
      = sampleBatch.metrics.total :=
  metrics_sum_invariant "batch-1" [("file-1", "call.txt", "hello world")] sampleConfig
    (fun _ => outcomeAll) (fileStartStep sampleBatchProcessing 0) (by decide)

/-- C3 counterexample: interleaving `cancelBatch` with the processing
loop violates the claim — the batch reaches the terminal status
`cancelled`, and the loop's completion step then transitions it again,
to `completed`. -/
theorem terminal_status_not_stable :
    (applyOps sampleBatch cancelMidRunOps).status = BatchStatus.cancelled ∧
    BatchStatus.terminal (applyOps sampleBatch cancelMidRunOps).status = true ∧
    (applyOps sampleBatch (cancelMidRunOps ++ [TrackerOp.finishLoop])).status
      = BatchStatus.completed ∧
    BatchStatus.completed ≠ BatchStatus.cancelled := by
  decide

/-- C3 (amended): in a `startProcessing` run with no interleaved
`cancelBatch`, the batch's status becomes `processing` exactly once (at
the start) and a terminal status exactly once (`completed`, at the very
end); and `cancelBatch` itself never transitions a batch whose status is
`completed` or `cancelled`.  However, the loop's completion step
overwrites any status — including the terminal `cancelled` — with
`completed`, so under interleaving with `cancelBatch` a batch can leave
a terminal status (see the counterexample). -/
theorem single_run_status_transitions :
    (∀ (b : BatchJob) (outs : Nat → FanoutOutcome),
      (runTrace b outs).map BatchJob.status
        = List.replicate (2 * b.files.length + 1) BatchStatus.processing
            ++ [BatchStatus.completed]) ∧
    (∀ b : BatchJob,
      b.status = BatchStatus.completed ∨ b.status = BatchStatus.cancelled →
      applyOp b TrackerOp.cancel = b) := by
  constructor
  · intro b outs
    simp only [runTrace, List.map_append, List.map_cons, List.map_nil]
    rw [runStatesFrom_map_status]
    have hrep : List.replicate (2 * b.files.length + 1) BatchStatus.processing
        = BatchStatus.processing ::
            List.replicate (2 * b.files.length) BatchStatus.processing := rfl
    rw [hrep, List.cons_append]
  · intro b hb
    simp only [applyOp]
    rw [if_pos hb]

/-- C3 (amended) witness: `cancelBatch`'s status effect on an
already-completed batch is the identity. -/
theorem single_run_status_transitions_witness :
    applyOp sampleBatchCompleted TrackerOp.cancel = sampleBatchCompleted :=
  single_run_status_transitions.2 sampleBatchCompleted (Or.inl rfl)

/-- C4 counterexample: after `startProcessing` is invoked a second time
on the already-completed one-file batch, the OpenAI completion counter is
2 while the batch's total file count is 1, so the counter is not bounded
by the total across every operation. -/
theorem provider_counter_exceeds_total :
    (findBatch registryAfterTwoRuns "batch-1").map
        (fun b => (b.metrics.openaiComplete, b.metrics.total)) = some (2, 1) ∧
    (findBatch registryAfterTwoRuns "batch-1").map
        (fun b => decide (b.metrics.openaiComplete ≤ b.metrics.total)) = some false := by
  decide

/-- C4 (amended): every provider completion counter is monotonically
non-decreasing across every tracker operation; and throughout a single
processing run started on a freshly created batch each provider counter
stays at most the batch's total file count.  The bound does not survive
repeated `startProcessing` invocations on the same batch (see the
counterexample). -/
theorem provider_counters_monotone_and_bounded :
    (∀ (b : BatchJob) (op : TrackerOp),
      b.metrics.openaiComplete ≤ (applyOp b op).metrics.openaiComplete ∧
      b.metrics.claudeComplete ≤ (applyOp b op).metrics.claudeComplete ∧
      b.metrics.geminiComplete ≤ (applyOp b op).metrics.geminiComplete) ∧
    (∀ (batchId : String) (uploads : List (String × String × String)) (cfg : JobConfig)
      (outs : Nat → FanoutOutcome) (x : BatchJob),
      x ∈ createBatch batchId uploads cfg ::
          runTrace (createBatch batchId uploads cfg) outs →
      x.metrics.openaiComplete ≤ x.metrics.total ∧
      x.metrics.claudeComplete ≤ x.metrics.total ∧
      x.metrics.geminiComplete ≤ x.metrics.total) := by
  constructor
  · intro b op
    cases op with
    | startHeader => exact ⟨le_refl _, le_refl _, le_refl _⟩
    | fileStart i =>
        obtain ⟨_, _, ho, hc, hg, _, _⟩ := fileStartStep_facts b i
        exact ⟨le_of_eq ho.symm, le_of_eq hc.symm, le_of_eq hg.symm⟩
    | fileSettle i out =>
        obtain ⟨_, _, _, _, ho1, _, hc1, _, hg1, _⟩ := fileSettleStep_facts b i out
        exact ⟨ho1, hc1, hg1⟩
    | finishLoop => exact ⟨le_refl _, le_refl _, le_refl _⟩
    | cancel =>
        simp only [applyOp]
        split <;> exact ⟨le_refl _, le_refl _, le_refl _⟩
  · intro batchId uploads cfg outs x hx
    have hzero : (createBatch batchId uploads cfg).metrics.openaiComplete = 0 ∧
        (createBatch batchId uploads cfg).metrics.claudeComplete = 0 ∧
        (createBatch batchId uploads cfg).metrics.geminiComplete = 0 ∧
        (createBatch batchId uploads cfg).metrics.total
          = ((createBatch batchId uploads cfg).files.length : Int) := by
      simp [createBatch]
    rcases List.mem_cons.mp hx with rfl | hx2
    · refine ⟨?_, ?_, ?_⟩ <;> omega
    · have htr : runTrace (createBatch batchId uploads cfg) outs =
          ({ createBatch batchId uploads cfg with status := BatchStatus.processing } ::
            runStatesFrom
              { createBatch batchId uploads cfg with status := BatchStatus.processing }
              outs 0 (createBatch batchId uploads cfg).files.length) ++
          [{ runFrom
              { createBatch batchId uploads cfg with status := BatchStatus.processing }
              outs 0 (createBatch batchId uploads cfg).files.length with
            status := BatchStatus.completed }] := by
        simp [runTrace]
      rw [htr] at hx2
      rcases List.mem_append.mp hx2 with hmid | hlast
      · rcases List.mem_cons.mp hmid with rfl | hmem
        · refine ⟨?_, ?_, ?_⟩ <;> simp <;> omega
        · obtain ⟨ht, _, _, ho1, ho2, hc1, hc2, hg1, hg2⟩ :=
            runStatesFrom_facts outs (createBatch batchId uploads cfg).files.length
              { createBatch batchId uploads cfg with status := BatchStatus.processing }
              0 x hmem
          have hm : ({ createBatch batchId uploads cfg with
              status := BatchStatus.processing } : BatchJob).metrics
              = (createBatch batchId uploads cfg).metrics := rfl
          rw [hm] at ht ho1 ho2 hc1 hc2 hg1 hg2
          refine ⟨?_, ?_, ?_⟩ <;> omega
      · rcases List.mem_singleton.mp hlast with rfl
        obtain ⟨ht, _, _, _, ho1, ho2, hc1, hc2, hg1, hg2⟩ :=
          runFrom_facts outs (createBatch batchId uploads cfg).files.length
            { createBatch batchId uploads cfg with status := BatchStatus.processing } 0
        simp at ht ho1 ho2 hc1 hc2 hg1 hg2 ⊢ <;> omega

/-- C4 (amended) witness: monotonicity at a concrete settle operation,
and the in-run bound at the concrete post-settle trace state. -/
theorem provider_counters_monotone_and_bounded_witness :
    (sampleBatch.metrics.openaiComplete
        ≤ (applyOp sampleBatch (TrackerOp.fileSettle 0 outcomeAll)).metrics.openaiComplete) ∧
    (fileSettleStep (fileStartStep sampleBatchProcessing 0) 0 outcomeAll).metrics.openaiComplete
      ≤ (fileSettleStep (fileStartStep sampleBatchProcessing 0) 0 outcomeAll).metrics.total :=
  ⟨(provider_counters_monotone_and_bounded.1 sampleBatch
      (TrackerOp.fileSettle 0 outcomeAll)).1,
   (provider_counters_monotone_and_bounded.2 "batch-1"
      [("file-1", "call.txt", "hello world")] sampleConfig (fun _ => outcomeAll)
      (fileSettleStep (fileStartStep sampleBatchProcessing 0) 0 outcomeAll)
      (by decide)).1⟩

/-- C10: `startProcessing` imposes no precondition on the batch's current
status — it succeeds exactly when the batch is registered and has a
`JobConfig`, whatever the status; a successful call replays the whole
observable run (first setting the status back to `processing`, then the
per-file loop, registering the run's final state); and on the concrete
already-completed one-file batch a second invocation re-decrements
`pending` to `-1` and re-increments the OpenAI counter to `2`, past the
total of `1`. -/
theorem startProcessing_no_status_precondition :
    (∀ (jobs : Registry) (batchId : String) (outs : Nat → FanoutOutcome),
      (startProcessing jobs batchId outs).1 = Except.ok () ↔
        ∃ b, findBatch jobs batchId = some b ∧ b.jobConfig.isSome) ∧
    (∀ (jobs : Registry) (batchId : String) (outs : Nat → FanoutOutcome) (b : BatchJob),
      findBatch jobs batchId = some b → b.jobConfig.isSome →
      ∃ bf, (runTrace b outs).getLast? = some bf ∧
        (startProcessing jobs batchId outs).2 = mapSet jobs batchId bf ∧
        (runTrace b outs).head? = some { b with status := BatchStatus.processing }) ∧
    ((findBatch registryAfterTwoRuns "batch-1").map
        (fun b => (b.metrics.pending, b.metrics.openaiComplete, b.metrics.total))
      = some (-1, 2, 1)) := by
  refine ⟨?_, ?_, by decide⟩
  · intro jobs batchId outs
    constructor
    · intro hok
      cases hb : findBatch jobs batchId with
      | none => simp [startProcessing, hb] at hok
      | some b =>
          cases hcfg : b.jobConfig with
          | none => simp [startProcessing, hb, hcfg] at hok
          | some cfg => exact ⟨b, rfl, by simp [hcfg]⟩
    · rintro ⟨b, hb, hcfg⟩
      obtain ⟨cfg, hc⟩ := Option.isSome_iff_exists.mp hcfg
      simp [startProcessing, hb, hc]
  · intro jobs batchId outs b hb hcfg
    obtain ⟨cfg, hc⟩ := Option.isSome_iff_exists.mp hcfg
    have htr : runTrace b outs =
        ({ b with status := BatchStatus.processing } ::
          runStatesFrom { b with status := BatchStatus.processing } outs 0
            b.files.length) ++
        [{ runFrom { b with status := BatchStatus.processing } outs 0
            b.files.length with status := BatchStatus.completed }] := rfl
    refine ⟨{ runFrom { b with status := BatchStatus.processing } outs 0
        b.files.length with status := BatchStatus.completed }, ?_, ?_, ?_⟩
    · rw [htr]
      exact List.getLast?_concat _
    · simp [startProcessing, hb, hc]
    · rw [htr]
      rfl

/-- C10 witness: on the registered sample batch the success condition is
met whatever the status, and the run's first observable state sets the
status to `processing`. -/
theorem startProcessing_no_status_precondition_witness :
    (startProcessing sampleRegistry "batch-1" fun _ => outcomeAll).1 = Except.ok () ∧
    ∃ bf, (runTrace sampleBatch fun _ => outcomeAll).getLast? = some bf ∧
      (startProcessing sampleRegistry "batch-1" fun _ => outcomeAll).2
        = mapSet sampleRegistry "batch-1" bf ∧
      (runTrace sampleBatch fun _ => outcomeAll).head?
        = some { sampleBatch with status := BatchStatus.processing } :=
  ⟨(startProcessing_no_status_precondition.1 sampleRegistry "batch-1"
      (fun _ => outcomeAll)).mpr ⟨sampleBatch, by decide, by decide⟩,
   startProcessing_no_status_precondition.2.1 sampleRegistry "batch-1"
      (fun _ => outcomeAll) sampleBatch (by decide) (by decide)⟩

theorem archiveEntriesForFile_length (f : FileResultsView) :
    (archiveEntriesForFile f).length = presentCount f := by
  rcases f with ⟨fn, o, c, g⟩
  cases o <;> cases c <;> cases g <;> simp [archiveEntriesForFile, presentCount]

/-- C9: the archive built from a `MultiModelResults` snapshot has exactly
one entry per (file, provider) pair with a present result — its count is
the number of present results, every present result contributes its entry
under `provider/<stem>-<provider>.txt` holding only the analysis text,
and every entry arises that way (so absent results yield no entry). -/
theorem archive_entries_exact (r : MultiModelResults) :
    ((buildArchiveEntries r).length = (r.files.map presentCount).sum) ∧
    (∀ f ∈ r.files,
      (∀ a, f.openai = some a →
        ({ name := "openai/" ++ basenameExt f.filename ".txt" ++ "-openai.txt",
           content := a.analysis } : ArchiveEntry) ∈ buildArchiveEntries r) ∧
      (∀ a, f.claude = some a →
        ({ name := "claude/" ++ basenameExt f.filename ".txt" ++ "-claude.txt",
           content := a.analysis } : ArchiveEntry) ∈ buildArchiveEntries r) ∧
      (∀ a, f.gemini = some a →
        ({ name := "gemini/" ++ basenameExt f.filename ".txt" ++ "-gemini.txt",
           content := a.analysis } : ArchiveEntry) ∈ buildArchiveEntries r)) ∧
    (∀ e ∈ buildArchiveEntries r, ∃ f, f ∈ r.files ∧
      ((∃ a, f.openai = some a ∧
          e = { name := "openai/" ++ basenameExt f.filename ".txt" ++ "-openai.txt",
                content := a.analysis }) ∨
       (∃ a, f.claude = some a ∧
          e = { name := "claude/" ++ basenameExt f.filename ".txt" ++ "-claude.txt",
                content := a.analysis }) ∨
       (∃ a, f.gemini = some a ∧
          e = { name := "gemini/" ++ basenameExt f.filename ".txt" ++ "-gemini.txt",
                content := a.analysis }))) := by
  refine ⟨?_, ?_, ?_⟩
  · have hlen : ∀ l : List FileResultsView,
        ((l.map archiveEntriesForFile).flatten).length = (l.map presentCount).sum := by
      intro l
      induction l with
      | nil => simp
      | cons f t ih => simp [archiveEntriesForFile_length, ih]
    exact hlen r.files
  · intro f hf
    refine ⟨?_, ?_, ?_⟩ <;> intro a ha <;>
      · apply List.mem_flatten.mpr
        refine ⟨archiveEntriesForFile f, List.mem_map_of_mem _ hf, ?_⟩
        simp [archiveEntriesForFile, ha]
  · intro e he
    obtain ⟨s, hs, hes⟩ := List.mem_flatten.mp he
    obtain ⟨f, hf, rfl⟩ := List.mem_map.mp hs
    refine ⟨f, hf, ?_⟩
    rcases ho : f.openai with _ | a1 <;> rcases hcl : f.claude with _ | a2 <;>
      rcases hg : f.gemini with _ | a3 <;>
      simp [archiveEntriesForFile, ho, hcl, hg] at hes <;>
      simp [ho, hcl, hg] <;>
      tauto

/-- C9 witness: the concrete two-result snapshot yields exactly two
entries, among them the OpenAI entry named from the filename stem and
holding only the analysis text. -/
theorem archive_entries_exact_witness :
    (buildArchiveEntries sampleResults).length = 2 ∧
    ({ name := "openai/call-openai.txt",
       content := "The customer reported a billing problem." } : ArchiveEntry)
      ∈ buildArchiveEntries sampleResults := by
  constructor
  · rw [(archive_entries_exact sampleResults).1]
    decide
  · have h := ((archive_entries_exact sampleResults).2.1
        ⟨"call.txt", some sampleAnalysis, none, some sampleAnalysis⟩
        (by decide)).1 sampleAnalysis rfl
    exact h

end Knugget
